import Mathlib

/-
Verification of the FPGA configuration protocol engine of this repository:
the pin-derived device state machine, the command protocol with its
port-disabled sentinel, the three-phase streaming bitstream-load
transaction (with inline run-length decompression), the error-taxonomy
wire codec, and the advisory session lock.

The embedding is shallow: pure Rust functions become Lean functions;
fallible operations return Except; the server's mutable fields are passed
as explicit state; machine integers are Nat with masks/moduli where width
matters.  Panics (unreachable-state assertions) are embedded as Option,
with none marking the panic.  Ring-buffer trace logging has no observable
effect and is elided throughout.  Transport (SPI) operations are assumed
to succeed; device-visible behavior (status words read back, bytes
written, commands issued) is captured through explicit oracles and action
traces.
-/

namespace Hubris

/-! ## drv/fpga-api/src/lib.rs: the FpgaError taxonomy and its wire codec -/

/-- Error taxonomy of drv/fpga-api/src/lib.rs lines 14-21.  The two
payload-carrying variants carry a u8 code, embedded as a Nat (intended
range below 256). -/
inductive FpgaError
  | ImplError (code : Nat)
  | BitstreamError (code : Nat)
  | InvalidState
  | InvalidValue
  | PortDisabled
  | NotLocked
deriving DecidableEq

/-- Embedding of the impl From FpgaError for u16 at
drv/fpga-api/src/lib.rs lines 23-36.  The Rust widening cast u8 to u16 is
the identity on the embedded Nat payload. -/
def fpgaErrorToU16 : FpgaError → Nat
  | .ImplError code => 0x0100 ||| code
  | .BitstreamError code => 0x0200 ||| code
  | .InvalidState => 0x0300
  | .InvalidValue => 0x0301
  | .PortDisabled => 0x0400
  | .NotLocked => 0x0500

/-- Embedding of the impl TryFrom u16 for FpgaError at
drv/fpga-api/src/lib.rs lines 50-66.  The source's match over the masked
value and then over v is written as the equivalent conditional chain; the
Rust truncating cast u16 to u8 is modulo 256; Err(()) is embedded as
none. -/
def fpgaErrorTryFromU16 (v : Nat) : Option FpgaError :=
  if v &&& 0xff00 = 0x0100 then some (.ImplError (v % 256))
  else if v &&& 0xff00 = 0x0200 then some (.BitstreamError (v % 256))
  else if v = 0x0300 then some .InvalidState
  else if v = 0x0301 then some .InvalidValue
  else if v = 0x0400 then some .PortDisabled
  else if v = 0x0500 then some .NotLocked
  else none

/-- The defined bands of the 16-bit error wire encoding (spec section 6):
0x0100-0x01FF, 0x0200-0x02FF, 0x0300, 0x0301, 0x0400, 0x0500. -/
def inErrorBands (v : Nat) : Prop :=
  (0x0100 ≤ v ∧ v ≤ 0x01ff) ∨ (0x0200 ≤ v ∧ v ≤ 0x02ff) ∨
    v = 0x0300 ∨ v = 0x0301 ∨ v = 0x0400 ∨ v = 0x0500

instance (v : Nat) : Decidable (inErrorBands v) := by
  unfold inErrorBands; infer_instance

/-- Masking a 16-bit-decomposed value with 0xff00 isolates the high byte. -/
theorem and_ff00_eq (h l : Nat) (hl : l < 256) :
    (256 * h + l) &&& 0xff00 = 256 * (h % 256) := by
  apply Nat.eq_of_testBit_eq
  intro j
  have e1 : (256 : Nat) * h + l = 2 ^ 8 * h + l := by norm_num
  have e2 : (0xff00 : Nat) = 2 ^ 8 * 255 + 0 := by norm_num
  have e3 : (256 : Nat) * (h % 256) = 2 ^ 8 * (h % 2 ^ 8) + 0 := by norm_num
  rw [Nat.testBit_and, e1, e2, e3,
    Nat.testBit_mul_pow_two_add h (show l < 2 ^ 8 by omega) j,
    Nat.testBit_mul_pow_two_add 255 (show (0 : Nat) < 2 ^ 8 by norm_num) j,
    Nat.testBit_mul_pow_two_add (h % 2 ^ 8) (show (0 : Nat) < 2 ^ 8 by norm_num) j]
  by_cases hj : j < 8
  · simp [hj]
  · rw [if_neg hj, if_neg hj, if_neg hj, Nat.testBit_mod_two_pow,
      show (255 : Nat) = 2 ^ 8 - 1 by norm_num, Nat.testBit_two_pow_sub_one]
    exact Bool.and_comm _ _

/-- Decoding any 16-bit value outside the defined bands fails. -/
theorem fpgaErrorTryFromU16_eq_none (v : Nat) (hv : v < 65536)
    (hb : ¬ inErrorBands v) : fpgaErrorTryFromU16 v = none := by
  have hd : v = 256 * (v / 256) + v % 256 := (Nat.div_add_mod v 256).symm
  have hband : v &&& 0xff00 = 256 * (v / 256) := by
    conv_lhs => rw [hd]
    rw [and_ff00_eq _ _ (Nat.mod_lt v (by norm_num))]
    congr 1
    exact Nat.mod_eq_of_lt (by omega)
  simp only [inErrorBands, not_or, not_and, not_le] at hb
  obtain ⟨hb1, hb2, hb3, hb4, hb5, hb6⟩ := hb
  have hq1 : ¬ (v &&& 0xff00 = 0x0100) := by rw [hband]; omega
  have hq2 : ¬ (v &&& 0xff00 = 0x0200) := by rw [hband]; omega
  rw [fpgaErrorTryFromU16, if_neg hq1, if_neg hq2, if_neg hb3, if_neg hb4,
    if_neg hb5, if_neg hb6]

/-- Encoding an ImplError payload places it in the 0x0100 band by
addition. -/
theorem toU16_ImplError (c : Nat) (hc : c < 256) :
    fpgaErrorToU16 (.ImplError c) = 256 + c := by
  have h1 : (2 : Nat) ^ 8 * 1 + c = 2 ^ 8 * 1 ||| c :=
    Nat.mul_add_lt_is_or (by omega) 1
  norm_num at h1
  show 0x0100 ||| c = 256 + c
  norm_num [← h1]

/-- Encoding a BitstreamError payload places it in the 0x0200 band by
addition. -/
theorem toU16_BitstreamError (c : Nat) (hc : c < 256) :
    fpgaErrorToU16 (.BitstreamError c) = 512 + c := by
  have h1 : (2 : Nat) ^ 8 * 2 + c = 2 ^ 8 * 2 ||| c :=
    Nat.mul_add_lt_is_or (by omega) 2
  norm_num at h1
  show 0x0200 ||| c = 512 + c
  norm_num [← h1]

/-! ## drv/fpga-api/src/lib.rs: DeviceState and BitstreamType -/

/-- DeviceState enum of drv/fpga-api/src/lib.rs lines 79-85. -/
inductive DeviceState
  | Unknown
  | Disabled
  | AwaitingBitstream
  | RunningApplication
  | Error
deriving DecidableEq

/-- BitstreamType enum of drv/fpga-api/src/lib.rs lines 89-92. -/
inductive BitstreamType
  | Uncompressed
  | Compressed
deriving DecidableEq

end Hubris

namespace Hubris.Ecp5Devices

/-! ## drv/fpga-devices/src/ecp5.rs: commands, status fields, device state -/

/-- Command opcodes of drv/fpga-devices/src/ecp5.rs lines 94-106. -/
inductive Command
  | Noop
  | ReadId
  | ReadUserCode
  | ReadStatus
  | CheckBusy
  | Refresh
  | EnableConfigurationMode
  | EnableTransparentConfigurationMode
  | DisableConfigurationMode
  | Erase
  | BitstreamBurst
deriving DecidableEq

/-- The wire-stable opcode byte of each command (the repr(u8)
discriminants at drv/fpga-devices/src/ecp5.rs lines 94-106). -/
def Command.opcode : Command → Nat
  | .Noop => 0xff
  | .ReadId => 0xe0
  | .ReadUserCode => 0xc0
  | .ReadStatus => 0x3c
  | .CheckBusy => 0xf0
  | .Refresh => 0x79
  | .EnableConfigurationMode => 0xc6
  | .EnableTransparentConfigurationMode => 0x74
  | .DisableConfigurationMode => 0x26
  | .Erase => 0x0e
  | .BitstreamBurst => 0x7a

/-- Bitstream error codes of drv/fpga-devices/src/ecp5.rs lines 37-46. -/
inductive BitstreamError
  | None
  | InvalidId
  | IllegalCommand
  | CrcMismatch
  | InvalidPreamble
  | UserAbort
  | DataOverflow
  | SramDataOverflow
deriving DecidableEq

/-- The repr(u8) discriminant of a BitstreamError (the Rust cast
error as u8). -/
def BitstreamError.toU8 : BitstreamError → Nat
  | .None => 0
  | .InvalidId => 1
  | .IllegalCommand => 2
  | .CrcMismatch => 3
  | .InvalidPreamble => 4
  | .UserAbort => 5
  | .DataOverflow => 6
  | .SramDataOverflow => 7

/-- Status register field bse_error_code, bits 25..23 of the 32-bit status
word (bitfield declaration at drv/fpga-devices/src/ecp5.rs line 71). -/
def bse_error_code (s : Nat) : Nat := (s >>> 23) &&& 7

/-- Status register single-bit field busy, bit 12 (line 62). -/
def busy (s : Nat) : Bool := s.testBit 12

/-- Status register single-bit field done, bit 8 (line 58). -/
def done_bit (s : Nat) : Bool := s.testBit 8

/-- Status register single-bit field write_enabled, bit 10 (line 60). -/
def write_enabled (s : Nat) : Bool := s.testBit 10

/-- Embedding of Status::bitstream_error (drv/fpga-devices/src/ecp5.rs
lines 82-85): BitstreamError::from_u32 on the 3-bit field, with
unwrap_or(None) as the defensive default arm. -/
def bitstream_error (s : Nat) : BitstreamError :=
  match bse_error_code s with
  | 0 => .None
  | 1 => .InvalidId
  | 2 => .IllegalCommand
  | 3 => .CrcMismatch
  | 4 => .InvalidPreamble
  | 5 => .UserAbort
  | 6 => .DataOverflow
  | 7 => .SramDataOverflow
  | _ => .None

/-- Embedding of Ecp5::device_state (drv/fpga-devices/src/ecp5.rs lines
290-300).  The three pin reads are fallible in the source; the claim
under verification assumes they succeed, so the pins are passed as their
read values. -/
def device_state (program_n done init_n : Bool) : DeviceState :=
  if !program_n then .Disabled
  else if done then .RunningApplication
  else if init_n then .AwaitingBitstream
  else .Error

end Hubris.Ecp5Devices

namespace Hubris

/-! ## Command protocol reads

read32 sends an opcode and reads back four bytes, which the device
returns in big-endian order.  The transport read is modelled by passing
the four bytes the device answered with; transport failures are outside
the claims under verification. -/

/-- Big-endian recombination of four answered bytes, the Rust
u32::from_be applied to the buffer filled by the transport read. -/
def u32_from_be (b0 b1 b2 b3 : Nat) : Nat :=
  ((b0 % 256) * 16777216) + ((b1 % 256) * 65536) + ((b2 % 256) * 256) + (b3 % 256)

end Hubris

namespace Hubris.Ecp5Lib

/-! ## drv/ecp5/src/lib.rs: the standalone ECP5 driver crate

Its types module (drv/ecp5/src/types.rs) is not under src/; per the spec
(section 3) the Command opcode enumeration is the same wire-stable set as
the one in drv/fpga-devices/src/ecp5.rs, so Ecp5Devices.Command is
reused here. -/

/-- Ecp5Error enum of drv/ecp5/src/lib.rs lines 39-44. -/
inductive Ecp5Error
  | ImplError (code : Nat)
  | BitstreamError (e : Ecp5Devices.BitstreamError)
  | PortDisabled
  | InvalidMode
deriving DecidableEq

/-- Embedding of Ecp5::read32 (drv/ecp5/src/lib.rs lines 197-219): the
four answered bytes are recombined big-endian; for ReadStatus and ReadId
an all-ones value is reinterpreted as the PortDisabled sentinel.  The
ringbuf trace match is elided. -/
def read32 (c : Ecp5Devices.Command) (b0 b1 b2 b3 : Nat) : Except Ecp5Error Nat :=
  let v := u32_from_be b0 b1 b2 b3
  if (c = .ReadStatus ∨ c = .ReadId) ∧ v = 0xffffffff then .error .PortDisabled
  else .ok v

end Hubris.Ecp5Lib

namespace Hubris.Ecp5Devices

/-- Embedding of Ecp5::read32 (drv/fpga-devices/src/ecp5.rs lines
216-220): the four answered bytes are recombined big-endian and returned
unconditionally; unlike the drv/ecp5 crate's read32 there is no
PortDisabled sentinel check.  The only error path is a transport failure
(assumed to succeed here). -/
def read32 (c : Command) (b0 b1 b2 b3 : Nat) : Except Hubris.FpgaError Nat :=
  .ok (u32_from_be b0 b1 b2 b3)

/-! ## drv/fpga-devices/src/ecp5.rs: finish_bitstream_load

The device is modelled by an oracle giving the status word answered by
the i-th status-register read of the run (every status read is fresh;
the oracle is indexed by read count).  The externally visible effects
are recorded as an action trace.  send_command's internal channel
lock/write/release triple is recorded as the single sendCommand action,
and a status read (lock, ReadStatus opcode, 4-byte read, release) as the
single readStatus action; the claims under verification are insensitive
to that granularity.  The unbounded polling loops take explicit fuel;
none marks non-termination within the given fuel. -/

/-- Externally visible effects of the bitstream-load finish sequence. -/
inductive Action
  | channelRelease
  | readStatus
  | sendCommand (c : Command)
  | sleep (ticks : Nat)
  | setApplicationEnabled (enabled : Bool)
deriving DecidableEq

/-- Poll interval constants, drv/fpga-devices/src/ecp5.rs lines 258-261. -/
def BUSY_DURATION : Nat := 10

/-- Poll interval for the done flag, line 261. -/
def DONE_DURATION : Nat := 10

/-- Embedding of Ecp5::await_not_busy (drv/fpga-devices/src/ecp5.rs lines
242-247): read status; while the busy bit is set, sleep for the given
interval and read again.  Returns the next unconsumed status-read index
and the actions performed. -/
def await_not_busy (statuses : Nat → Nat) (sleep_ticks : Nat) :
    Nat → Nat → Option (Nat × List Action)
  | 0, _ => Option.none
  | fuel + 1, i =>
    if busy (statuses i) then
      (await_not_busy statuses sleep_ticks fuel (i + 1)).map
        (fun r => (r.1, .readStatus :: .sleep sleep_ticks :: r.2))
    else some (i + 1, [.readStatus])

/-- Embedding of Ecp5::await_done (drv/fpga-devices/src/ecp5.rs lines
250-255): read status; while the done bit is clear, sleep for the given
interval and read again. -/
def await_done (statuses : Nat → Nat) (sleep_ticks : Nat) :
    Nat → Nat → Option (Nat × List Action)
  | 0, _ => Option.none
  | fuel + 1, i =>
    if done_bit (statuses i) then some (i + 1, [.readStatus])
    else
      (await_done statuses sleep_ticks fuel (i + 1)).map
        (fun r => (r.1, .readStatus :: .sleep sleep_ticks :: r.2))

/-- Embedding of Ecp5::finish_bitstream_load (drv/fpga-devices/src/ecp5.rs
lines 337-381): release the channel lock held since the burst command,
wait until not busy, re-read status; if the bitstream-error subfield is
nonzero, fail with BitstreamError of that code (leaving configuration
mode untouched); otherwise issue DisableConfigurationMode, wait for the
done flag, sleep for the application reset settle time and release the
application reset.  The preamble-detected ringbuf entries are elided. -/
def finish_bitstream_load (statuses : Nat → Nat)
    (busy_fuel done_fuel application_reset_ticks : Nat) :
    Option (Except Hubris.FpgaError Unit × List Action) :=
  match await_not_busy statuses BUSY_DURATION busy_fuel 0 with
  | Option.none => Option.none
  | some (i, tr1) =>
    let status := statuses i
    let error := bitstream_error status
    let tr := Action.channelRelease :: (tr1 ++ [Action.readStatus])
    if error ≠ BitstreamError.None then
      some (.error (Hubris.FpgaError.BitstreamError error.toU8), tr)
    else
      match await_done statuses DONE_DURATION done_fuel (i + 1) with
      | Option.none => Option.none
      | some (_, tr2) =>
        some (.ok (), tr ++ (Action.sendCommand Command.DisableConfigurationMode :: tr2)
          ++ [Action.sleep application_reset_ticks, Action.setApplicationEnabled true])

/-- The bse_error_code field is three bits wide. -/
theorem bse_error_code_lt (s : Nat) : bse_error_code s < 8 :=
  Nat.lt_of_le_of_lt Nat.and_le_right (by norm_num)

/-- Decoding the three-bit field and re-extracting the discriminant is the
identity on the field. -/
theorem toU8_bitstream_error (s : Nat) :
    (bitstream_error s).toU8 = bse_error_code s := by
  have h := bse_error_code_lt s
  unfold bitstream_error
  interval_cases h : bse_error_code s <;> rfl

/-- A nonzero bse_error_code field decodes to a nonzero error variant. -/
theorem bitstream_error_ne_none (s : Nat) (h : bse_error_code s ≠ 0) :
    bitstream_error s ≠ BitstreamError.None := by
  intro hN
  have ht := toU8_bitstream_error s
  rw [hN] at ht
  apply h
  simpa [BitstreamError.toU8] using ht.symm

/-- await_not_busy performs only status reads and sleeps. -/
theorem await_not_busy_actions (statuses : Nat → Nat) (t : Nat) :
    ∀ fuel i j tr, await_not_busy statuses t fuel i = some (j, tr) →
      ∀ a ∈ tr, a = Action.readStatus ∨ a = Action.sleep t := by
  intro fuel
  induction fuel with
  | zero => intro i j tr h; simp [await_not_busy] at h
  | succ n ih =>
    intro i j tr h a ha
    rw [await_not_busy] at h
    by_cases hb : busy (statuses i)
    · rw [if_pos hb] at h
      cases hrec : await_not_busy statuses t n (i + 1) with
      | none => rw [hrec] at h; simp at h
      | some r =>
        obtain ⟨j', tr'⟩ := r
        rw [hrec] at h
        simp only [Option.map_some', Option.some.injEq, Prod.mk.injEq] at h
        obtain ⟨hj, htr⟩ := h
        subst htr
        simp only [List.mem_cons] at ha
        rcases ha with ha | ha | ha
        · left; exact ha
        · right; exact ha
        · exact ih (i + 1) j' tr' hrec a ha
    · rw [if_neg hb] at h
      simp only [Option.some.injEq, Prod.mk.injEq] at h
      obtain ⟨hj, htr⟩ := h
      subst htr
      simp only [List.mem_cons, List.not_mem_nil, or_false] at ha
      left; exact ha

/-- await_done blocks until the done flag asserts: it consumes at least
one status read, the last status read has done set, every earlier one
read by the loop has done clear, and only status reads and sleeps are
performed. -/
theorem await_done_spec (statuses : Nat → Nat) (t : Nat) :
    ∀ fuel i j tr, await_done statuses t fuel i = some (j, tr) →
      i < j ∧ done_bit (statuses (j - 1)) = true ∧
      (∀ k, i ≤ k → k < j - 1 → done_bit (statuses k) = false) ∧
      (∀ a ∈ tr, a = Action.readStatus ∨ a = Action.sleep t) := by
  intro fuel
  induction fuel with
  | zero => intro i j tr h; simp [await_done] at h
  | succ n ih =>
    intro i j tr h
    rw [await_done] at h
    by_cases hd : done_bit (statuses i) = true
    · rw [if_pos hd] at h
      simp only [Option.some.injEq, Prod.mk.injEq] at h
      obtain ⟨hj, htr⟩ := h
      subst hj
      subst htr
      refine ⟨Nat.lt_succ_self i, by simpa using hd, ?_, ?_⟩
      · intro k hk1 hk2; omega
      · intro a ha
        simp only [List.mem_cons, List.not_mem_nil, or_false] at ha
        left; exact ha
    · rw [if_neg hd] at h
      have hdf : done_bit (statuses i) = false := by
        revert hd; cases done_bit (statuses i) <;> simp
      cases hrec : await_done statuses t n (i + 1) with
      | none => rw [hrec] at h; simp at h
      | some r =>
        obtain ⟨j', tr'⟩ := r
        rw [hrec] at h
        simp only [Option.map_some', Option.some.injEq, Prod.mk.injEq] at h
        obtain ⟨hj, htr⟩ := h
        subst hj
        subst htr
        obtain ⟨h1, h2, h3, h4⟩ := ih (i + 1) j' tr' hrec
        refine ⟨by omega, h2, ?_, ?_⟩
        · intro k hk1 hk2
          rcases Nat.eq_or_lt_of_le hk1 with hk | hk
          · exact hk ▸ hdf
          · exact h3 k (by omega) hk2
        · intro a ha
          simp only [List.mem_cons] at ha
          rcases ha with ha | ha | ha
          · left; exact ha
          · right; exact ha
          · exact h4 a ha

end Hubris.Ecp5Devices

namespace Hubris.Gnarle

/-! ## The gnarle run-length decompressor, modelled from the spec -/

/-- Modelled from the spec: the gnarle crate (lib/gnarle of this
repository) implements the streaming run-length decompressor consumed by
the fpga server; its source is not under src/.  Spec section 3 describes
its state as partial run-length-decode context — current run byte,
remaining run length, literal/run mode — that must persist across
separate input chunks, and section 4.3 requires that a call may
legitimately produce zero output bytes when the input ends mid-run.  The
model is a byte-at-a-time state machine: a control byte b below 0x80
announces b+1 literal bytes passed through verbatim; a control byte of
0x80 or above announces a run of length b-127 whose run byte follows, so
a chunk ending between the control byte and its run byte produces no
output until the next chunk supplies it. -/
inductive Decompressor
  | control
  | literal (remaining : Nat)
  | run (length : Nat)
deriving DecidableEq

/-- Decompressor::default(): awaiting a control byte. -/
def Decompressor.default : Decompressor := .control

/-- Consume one compressed input byte, producing the decompressed bytes
it completes.  In state literal k, k+1 literal bytes remain to be passed
through; in state run n, the next input byte is the run byte, emitted n
times at once. -/
def step : Decompressor → Nat → Decompressor × List Nat
  | .control, b => if b < 0x80 then (.literal b, []) else (.run (b - 127), [])
  | .literal 0, b => (.control, [b])
  | .literal (k + 1), b => (.literal k, [b])
  | .run n, b => (.control, List.replicate n b)

/-- Modelled from the spec: gnarle::decompress consumes the input chunk,
appending each produced output span; the fpga server's continue loop
(drv/fpga-server/src/main.rs lines 241-258) invokes it repeatedly until
the chunk is fully consumed, writing each non-empty produced span to the
device in order, so the 1024-byte output window of the real signature is
abstracted into the concatenated output stream. -/
def decompress (d : Decompressor) : List Nat → Decompressor × List Nat
  | [] => (d, [])
  | b :: rest =>
    let s1 := step d b
    let s2 := decompress s1.1 rest
    (s2.1, s1.2 ++ s2.2)

/-- Unfolding equation for decompress on a nonempty input. -/
theorem decompress_cons (d : Decompressor) (b : Nat) (xs : List Nat) :
    decompress d (b :: xs) =
      ((decompress (step d b).1 xs).1,
        (step d b).2 ++ (decompress (step d b).1 xs).2) := rfl

/-- Streaming decompression is a state morphism over input concatenation:
decompressing two chunks in sequence from the persisted state equals
decompressing their concatenation. -/
theorem decompress_append (d : Decompressor) (xs ys : List Nat) :
    decompress d (xs ++ ys) =
      ((decompress (decompress d xs).1 ys).1,
        (decompress d xs).2 ++ (decompress (decompress d xs).1 ys).2) := by
  induction xs generalizing d with
  | nil => simp [decompress]
  | cons b rest ih =>
    simp only [List.cons_append, decompress_cons, List.append_assoc, Prod.mk.injEq]
    exact ⟨by rw [ih], by rw [ih]⟩

end Hubris.Gnarle

namespace Hubris.Server

/-! ## drv/fpga-server/src/main.rs: the server state machine

The server's mutable state relevant to the claims is the lock_holder and
bitstream_loader fields; each Idol operation is embedded as a function
from that state (plus the outcomes of the device calls it makes) to a
result and the new state.  Device writes are assumed to succeed where a
claim is about the server's own logic; a panic is embedded as none. -/

/-- BitstreamLoader enum of drv/fpga-server/src/main.rs lines 86-90
(the source spells the uncompressed variant Inprogress). -/
inductive BitstreamLoader
  | None
  | UncompressedLoadInprogress (bitstream_len : Nat)
  | CompressedLoadInProgress (decompressor : Gnarle.Decompressor) (bitstream_len : Nat)
deriving DecidableEq

/-- Embedding of ServerImpl::start_bitstream_load
(drv/fpga-server/src/main.rs lines 202-221): the bitstream_loader field
is unconditionally assigned a fresh loader for the requested type before
the fallible device start is attempted; the device outcome is then
propagated as the result.  Returns the result together with the field's
new value. -/
def start_bitstream_load (loader : BitstreamLoader) (bitstream_type : BitstreamType)
    (device_start : Except FpgaError Unit) :
    Except FpgaError Unit × BitstreamLoader :=
  let loader' := match bitstream_type with
    | .Uncompressed => BitstreamLoader.UncompressedLoadInprogress 0
    | .Compressed =>
      BitstreamLoader.CompressedLoadInProgress Gnarle.Decompressor.default 0
  match device_start with
  | .error e => (.error e, loader')
  | .ok _ => (.ok (), loader')

/-- Embedding of ServerImpl::continue_bitstream_load
(drv/fpga-server/src/main.rs lines 223-264): with no load in progress the
server panics (none); an uncompressed load forwards the chunk to the
device verbatim and advances the byte counter by the chunk length; a
compressed load runs the chunk through the decompressor, forwards the
produced output and advances the counter by the produced-output length.
Returns the new loader state and the bytes written to the device. -/
def continue_bitstream_load (loader : BitstreamLoader) (chunk : List Nat) :
    Option (BitstreamLoader × List Nat) :=
  match loader with
  | .None => Option.none
  | .UncompressedLoadInprogress bitstream_len =>
    some (.UncompressedLoadInprogress (bitstream_len + chunk.length), chunk)
  | .CompressedLoadInProgress decompressor bitstream_len =>
    let r := Gnarle.decompress decompressor chunk
    some (.CompressedLoadInProgress r.1 (bitstream_len + r.2.length), r.2)

/-- Embedding of ServerImpl::finish_bitstream_load
(drv/fpga-server/src/main.rs lines 266-286): with no load in progress the
server panics (none); otherwise the device finish is attempted, an error
propagating before the loader field is touched, and only on success is
the field reset to None. -/
def finish_bitstream_load (loader : BitstreamLoader)
    (device_finish : Except FpgaError Unit) :
    Option (Except FpgaError Unit × BitstreamLoader) :=
  match loader with
  | .None => Option.none
  | .UncompressedLoadInprogress bitstream_len =>
    match device_finish with
    | .error e => some (.error e, .UncompressedLoadInprogress bitstream_len)
    | .ok _ => some (.ok (), .None)
  | .CompressedLoadInProgress decompressor bitstream_len =>
    match device_finish with
    | .error e => some (.error e, .CompressedLoadInProgress decompressor bitstream_len)
    | .ok _ => some (.ok (), .None)

/-- Embedding of ServerImpl::lock (drv/fpga-server/src/main.rs lines
117-128): if a holder exists the server asserts it equals the sender
(panicking otherwise, embedded as none), then records the sender.
Task identifiers are embedded as Nat. -/
def lock (lock_holder : Option Nat) (sender : Nat) :
    Option (Except FpgaError Unit × Option Nat) :=
  match lock_holder with
  | some task => if task = sender then some (.ok (), some sender) else Option.none
  | Option.none => some (.ok (), some sender)

/-- Embedding of ServerImpl::release (drv/fpga-server/src/main.rs lines
130-146): with a holder, assert it equals the sender and clear the lock;
with no holder, fail with NotLocked leaving the (empty) state unchanged. -/
def release (lock_holder : Option Nat) (sender : Nat) :
    Option (Except FpgaError Unit × Option Nat) :=
  match lock_holder with
  | some task => if task = sender then some (.ok (), Option.none) else Option.none
  | Option.none => some (.error FpgaError.NotLocked, Option.none)

/-- Embedding of ServerImpl::closed_recv_fail (drv/fpga-server/src/main.rs
lines 111-115): the lock holder died while the server was in its closed
receive, so the lock is force-cleared. -/
def closed_recv_fail (lock_holder : Option Nat) : Option Nat := Option.none

end Hubris.Server

namespace Hubris

/-! ## Claim theorems -/

/-- Claim C5: for all 8 combinations of the three pin booleans (with the
pin reads succeeding), device_state returns exactly one of the four
defined states per the priority table: program_n deasserted gives
Disabled; otherwise done asserted gives RunningApplication regardless of
init_n; otherwise init_n asserted gives AwaitingBitstream; otherwise
Error. -/
theorem c5_device_state_decision_table :
    (∀ d i : Bool, Ecp5Devices.device_state false d i = DeviceState.Disabled) ∧
    (∀ i : Bool, Ecp5Devices.device_state true true i = DeviceState.RunningApplication) ∧
    Ecp5Devices.device_state true false true = DeviceState.AwaitingBitstream ∧
    Ecp5Devices.device_state true false false = DeviceState.Error := by
  refine ⟨?_, ?_, rfl, rfl⟩ <;> decide

/-- Claim C6: decoding the 16-bit numeric encoding of every member of the
FpgaError taxonomy returns that member, and decoding any 16-bit value
outside the defined bands (0x0100-0x01FF, 0x0200-0x02FF, 0x0300, 0x0301,
0x0400, 0x0500) fails explicitly rather than returning any variant. -/
theorem c6_error_codec_round_trip :
    (∀ c : Nat, c < 256 →
      fpgaErrorTryFromU16 (fpgaErrorToU16 (.ImplError c)) = some (.ImplError c)) ∧
    (∀ c : Nat, c < 256 →
      fpgaErrorTryFromU16 (fpgaErrorToU16 (.BitstreamError c)) = some (.BitstreamError c)) ∧
    fpgaErrorTryFromU16 (fpgaErrorToU16 .InvalidState) = some .InvalidState ∧
    fpgaErrorTryFromU16 (fpgaErrorToU16 .InvalidValue) = some .InvalidValue ∧
    fpgaErrorTryFromU16 (fpgaErrorToU16 .PortDisabled) = some .PortDisabled ∧
    fpgaErrorTryFromU16 (fpgaErrorToU16 .NotLocked) = some .NotLocked ∧
    (∀ v : Nat, v < 65536 → ¬ inErrorBands v → fpgaErrorTryFromU16 v = none) := by
  refine ⟨?_, ?_, by decide, by decide, by decide, by decide,
    fpgaErrorTryFromU16_eq_none⟩
  · intro c hc
    rw [toU16_ImplError c hc]
    have hband := and_ff00_eq 1 c hc
    norm_num at hband
    simp [fpgaErrorTryFromU16, hband, Nat.add_mod_left, Nat.mod_eq_of_lt hc]
  · intro c hc
    rw [toU16_BitstreamError c hc]
    have hband := and_ff00_eq 2 c hc
    norm_num at hband
    simp only [fpgaErrorTryFromU16, hband]
    norm_num
    omega

/-- Witness for C6: the round trip at the concrete member ImplError 0xab
and explicit decode failure at the out-of-band value 0x0600. -/
theorem c6_witness :
    (0xab : Nat) < 256 ∧
    fpgaErrorTryFromU16 (fpgaErrorToU16 (.ImplError 0xab)) = some (.ImplError 0xab) ∧
    (0x0600 : Nat) < 65536 ∧ ¬ inErrorBands 0x0600 ∧
    fpgaErrorTryFromU16 0x0600 = none :=
  ⟨by norm_num, c6_error_codec_round_trip.1 0xab (by norm_num), by norm_num, by decide,
    c6_error_codec_round_trip.2.2.2.2.2.2 0x0600 (by norm_num) (by decide)⟩

/-- Claim C7 (divergence witness): the drv/ecp5 crate's read32 maps an
all-ones read to PortDisabled exactly for the ReadStatus and ReadId
opcodes and returns the value verbatim for every other opcode, but the
drv/fpga-devices Ecp5::read32 actually used by the fpga server has no
such sentinel and returns the literal 0xFFFFFFFF for ReadStatus,
contradicting the claim (and the comment at
drv/fpga-devices/src/ecp5.rs lines 370-372 promising a PortDisabled
error for such reads). -/
theorem c7_read32_all_ones_divergence :
    (∀ c : Ecp5Devices.Command,
      Ecp5Lib.read32 c 0xff 0xff 0xff 0xff =
        (if c = .ReadStatus ∨ c = .ReadId
          then .error Ecp5Lib.Ecp5Error.PortDisabled
          else .ok 0xffffffff)) ∧
    Ecp5Devices.read32 .ReadStatus 0xff 0xff 0xff 0xff = .ok 0xffffffff := by
  constructor
  · intro c; cases c <;> rfl
  · rfl

end Hubris

namespace Hubris.Ecp5Devices

/-- Claim C3: when the post-load status word re-read after the busy wait
has a nonzero bitstream-error subfield, finish_bitstream_load returns
BitstreamError carrying that subfield's code, the action trace contains
no DisableConfigurationMode command (the device is left in configuration
mode), and a subfield value of 3 decodes to CrcMismatch. -/
theorem c3_finish_bitstream_error_no_disable
    (statuses : Nat → Nat) (busy_fuel done_fuel ticks i : Nat) (tr1 : List Action)
    (hbusy : await_not_busy statuses BUSY_DURATION busy_fuel 0 = some (i, tr1))
    (herr : bse_error_code (statuses i) ≠ 0) :
    finish_bitstream_load statuses busy_fuel done_fuel ticks =
      some (.error (Hubris.FpgaError.BitstreamError (bse_error_code (statuses i))),
        Action.channelRelease :: (tr1 ++ [Action.readStatus])) ∧
    (∀ a ∈ Action.channelRelease :: (tr1 ++ [Action.readStatus]),
      a ≠ Action.sendCommand Command.DisableConfigurationMode) ∧
    (bse_error_code (statuses i) = 3 →
      bitstream_error (statuses i) = BitstreamError.CrcMismatch) := by
  have hne := bitstream_error_ne_none (statuses i) herr
  refine ⟨?_, ?_, ?_⟩
  · simp only [finish_bitstream_load, hbusy]
    rw [if_pos hne, toU8_bitstream_error]
  · intro a ha
    simp only [List.mem_cons, List.mem_append, List.not_mem_nil, or_false] at ha
    rcases ha with ha | ha | ha
    · subst ha; simp
    · rcases await_not_busy_actions statuses BUSY_DURATION busy_fuel 0 i tr1 hbusy a ha
        with h | h <;> subst h <;> simp
    · subst ha; simp
  · intro h3
    unfold bitstream_error
    rw [h3]

/-- Witness for C3: a device whose every status read answers 25165824
(bse_error_code 3, busy clear) makes finish_bitstream_load fail with
BitstreamError 3 without issuing DisableConfigurationMode. -/
theorem c3_witness :
    await_not_busy (fun _ => 25165824) BUSY_DURATION 1 0 = some (1, [Action.readStatus]) ∧
    bse_error_code 25165824 ≠ 0 ∧
    finish_bitstream_load (fun _ => 25165824) 1 1 25 =
      some (.error (Hubris.FpgaError.BitstreamError (bse_error_code 25165824)),
        Action.channelRelease :: ([Action.readStatus] ++ [Action.readStatus])) :=
  ⟨by decide, by decide,
    (c3_finish_bitstream_error_no_disable (fun _ => 25165824) 1 1 25 1
      [Action.readStatus] (by decide) (by decide)).1⟩

/-- Claim C4: when the post-load status word's bitstream-error subfield is
zero, finish_bitstream_load issues DisableConfigurationMode, then polls
(status reads and fixed-interval sleeps only) until the done flag
asserts, then sleeps the settle delay and re-asserts the downstream
application reset, in that order. -/
theorem c4_finish_success_sequence
    (statuses : Nat → Nat) (busy_fuel done_fuel ticks i j : Nat)
    (tr1 tr2 : List Action)
    (hbusy : await_not_busy statuses BUSY_DURATION busy_fuel 0 = some (i, tr1))
    (hok : bse_error_code (statuses i) = 0)
    (hdone : await_done statuses DONE_DURATION done_fuel (i + 1) = some (j, tr2)) :
    finish_bitstream_load statuses busy_fuel done_fuel ticks =
      some (.ok (),
        (Action.channelRelease :: (tr1 ++ [Action.readStatus]))
          ++ (Action.sendCommand Command.DisableConfigurationMode :: tr2)
          ++ [Action.sleep ticks, Action.setApplicationEnabled true]) ∧
    (∀ a ∈ tr2, a = Action.readStatus ∨ a = Action.sleep DONE_DURATION) ∧
    done_bit (statuses (j - 1)) = true ∧
    (∀ k, i + 1 ≤ k → k < j - 1 → done_bit (statuses k) = false) := by
  have hnn : bitstream_error (statuses i) = .None := by
    unfold bitstream_error; rw [hok]
  obtain ⟨hlt, hdone1, hdone2, hacts⟩ :=
    await_done_spec statuses DONE_DURATION done_fuel (i + 1) j tr2 hdone
  refine ⟨?_, hacts, hdone1, hdone2⟩
  simp only [finish_bitstream_load, hbusy, hdone]
  rw [if_neg (by rw [hnn]; exact fun hE => hE rfl)]

/-- Witness for C4: a device answering status 0 twice (not busy, no
bitstream error) and then 256 (done) runs the full success sequence. -/
theorem c4_witness :
    await_not_busy (fun k => if k < 2 then 0 else 256) BUSY_DURATION 1 0 =
        some (1, [Action.readStatus]) ∧
    bse_error_code ((fun k => if k < 2 then 0 else 256) 1) = 0 ∧
    await_done (fun k => if k < 2 then 0 else 256) DONE_DURATION 1 2 =
        some (3, [Action.readStatus]) ∧
    finish_bitstream_load (fun k => if k < 2 then 0 else 256) 1 1 25 =
      some (.ok (),
        (Action.channelRelease :: ([Action.readStatus] ++ [Action.readStatus]))
          ++ (Action.sendCommand Command.DisableConfigurationMode :: [Action.readStatus])
          ++ [Action.sleep 25, Action.setApplicationEnabled true]) :=
  ⟨by decide, by decide, by decide,
    (c4_finish_success_sequence (fun k => if k < 2 then 0 else 256) 1 1 25 1 3
      [Action.readStatus] [Action.readStatus] (by decide) (by decide) (by decide)).1⟩

end Hubris.Ecp5Devices

namespace Hubris.Server

/-- Claim C1 counterexample: with an uncompressed load already in
progress (5 bytes written), a second start_bitstream_load is not
rejected — it succeeds and replaces the in-progress loader state with a
fresh one. -/
theorem c1_counterexample :
    (start_bitstream_load (.UncompressedLoadInprogress 5) .Uncompressed (.ok ())).1
        = .ok () ∧
    (start_bitstream_load (.UncompressedLoadInprogress 5) .Uncompressed (.ok ())).2
        = .UncompressedLoadInprogress 0 ∧
    BitstreamLoader.UncompressedLoadInprogress 0 ≠ .UncompressedLoadInprogress 5 :=
  ⟨rfl, rfl, by decide⟩

/-- Claim C1 (amended): start_bitstream_load performs no in-progress
check; for every prior loader state it unconditionally installs a fresh
loader of the requested type with a zero byte counter, and its result is
exactly the device start outcome. -/
theorem c1_start_replaces_loader (loader : BitstreamLoader) (t : BitstreamType)
    (r : Except FpgaError Unit) :
    (start_bitstream_load loader t r).1 = r ∧
    (start_bitstream_load loader t r).2 =
      (match t with
        | .Uncompressed => BitstreamLoader.UncompressedLoadInprogress 0
        | .Compressed =>
          BitstreamLoader.CompressedLoadInProgress Gnarle.Decompressor.default 0) := by
  cases t <;> cases r <;> simp [start_bitstream_load]

/-- Claim C2: feeding a compressed stream to continue_bitstream_load as
one chunk versus as two chunks split at any byte position, with the
decompressor state persisted in the CompressedLoadInProgress variant
between the two calls, produces byte-identical decompressed output
written to the device (and the same final loader state), including when
the split falls inside a run. -/
theorem c2_continue_split_equals_whole (d : Gnarle.Decompressor) (n : Nat)
    (input : List Nat) (k : Nat) :
    (continue_bitstream_load (.CompressedLoadInProgress d n) (input.take k)).bind
        (fun r1 => (continue_bitstream_load r1.1 (input.drop k)).map
          (fun r2 => (r2.1, r1.2 ++ r2.2)))
      = continue_bitstream_load (.CompressedLoadInProgress d n) input := by
  conv_rhs => rw [← List.take_append_drop k input]
  simp only [continue_bitstream_load, Gnarle.decompress_append, Option.some_bind,
    Option.map_some', Option.some.injEq, Prod.mk.injEq]
  simp [List.length_append, Nat.add_assoc]

/-- Claim C8: release with no lock held fails with NotLocked leaving the
lock state unchanged; after caller a locks, a detected termination of a
(closed_recv_fail) clears the lock without an explicit release, after
which any caller b's lock succeeds. -/
theorem c8_session_lock_recovery (a b s : Nat) :
    release Option.none s = some (.error FpgaError.NotLocked, Option.none) ∧
    lock Option.none a = some (.ok (), some a) ∧
    closed_recv_fail (some a) = Option.none ∧
    lock (closed_recv_fail (some a)) b = some (.ok (), some b) :=
  ⟨rfl, rfl, rfl, rfl⟩

/-- Claim C9 counterexample: a start_bitstream_load that returns an error
(device refused) still installs a fresh in-progress loader, so a
subsequent continue_bitstream_load does not signal a programming error —
it forwards the bytes as if a load were validly in progress. -/
theorem c9_counterexample :
    (start_bitstream_load .None .Uncompressed (.error FpgaError.InvalidState)).1
        = .error FpgaError.InvalidState ∧
    continue_bitstream_load
        (start_bitstream_load .None .Uncompressed (.error FpgaError.InvalidState)).2
        [1, 2, 3]
      = some (.UncompressedLoadInprogress 3, [1, 2, 3]) :=
  ⟨rfl, rfl⟩

/-- Claim C9 (amended): continue_bitstream_load signals a programming
error (panic) exactly when no load was ever started (loader None); after
a start that returned an error the loader is already in progress, so
continue succeeds in forwarding rather than signalling. -/
theorem c9_continue_signals_only_without_start (chunk : List Nat) (e : FpgaError)
    (t : BitstreamType) :
    continue_bitstream_load .None chunk = Option.none ∧
    (continue_bitstream_load (start_bitstream_load .None t (.error e)).2 chunk).isSome
      = true := by
  cases t <;> simp [continue_bitstream_load, start_bitstream_load]

/-- Claim C10: every finish_bitstream_load that returns an error leaves
the bitstream_loader field unchanged in its in-progress variant
(including byte counter and decompressor state); it is reset to None
exactly when the operation succeeds. -/
theorem c10_finish_error_preserves_loader (loader : BitstreamLoader) (e : FpgaError)
    (h : loader ≠ .None) :
    finish_bitstream_load loader (.error e) = some (.error e, loader) ∧
    finish_bitstream_load loader (.ok ()) = some (.ok (), .None) := by
  cases loader with
  | None => exact absurd rfl h
  | UncompressedLoadInprogress len => exact ⟨rfl, rfl⟩
  | CompressedLoadInProgress d len => exact ⟨rfl, rfl⟩

/-- Witness for C10: finishing with a device error at a concrete
in-progress loader preserves it exactly. -/
theorem c10_witness :
    BitstreamLoader.UncompressedLoadInprogress 7 ≠ .None ∧
    finish_bitstream_load (.UncompressedLoadInprogress 7) (.error FpgaError.InvalidState)
      = some (.error FpgaError.InvalidState, .UncompressedLoadInprogress 7) :=
  ⟨by decide,
    (c10_finish_error_preserves_loader (.UncompressedLoadInprogress 7)
      FpgaError.InvalidState (by decide)).1⟩

end Hubris.Server
